import Mathlib

/-!
Shallow embedding of the step-plotter of `igrmk/plot` (`plotter/step.go`, new
version with `FillColor`/`StepStyle`, plus the older gonum version with
`ShadeColor`/`StepType`).  Device-space coordinates are modelled as exact
rationals; canvas path construction is modelled as explicit lists of path
components, and the drawing calls of `Plot` and `Thumbnail` as explicit lists
of commands.
-/

namespace StepPlot

/-- A device-space (or data-space) point, `vg.Point`. -/
structure Point where
  x : ℚ
  y : ℚ
deriving DecidableEq, Repr

/-- One component of a `vg.Path`: `Move`, `Line` or `Close`. -/
inductive PathComp where
  | move (p : Point)
  | line (p : Point)
  | close
deriving DecidableEq, Repr

/-- `StepKind` is a Go `int`; `PreStep = 0`, `MidStep = 1`, `PostStep = 2`. -/
abbrev StepKind := Int

/-- `PreStep StepKind = iota` (= 0). -/
def preStep : StepKind := 0

/-- `MidStep` (= 1). -/
def midStep : StepKind := 1

/-- `PostStep` (= 2). -/
def postStep : StepKind := 2

/-- The body of the fill loop `for i, pt := range ps[1:]` of `Step.Plot`
(lines 79–95 of the new `step.go`): `prev` is the running previous point,
`i` the loop index into `ps[1:]`, and `total` is `len(ps)`.  The `switch`
on `pts.StepStyle` has no `default` case. -/
def fillSteps (kind : StepKind) (total : Nat) : Point → List Point → Int → List PathComp
  | _, [], _ => []
  | prev, pt :: rest, i =>
    (if kind = preStep then
      [.line ⟨prev.x, pt.y⟩, .line pt]
    else if kind = midStep then
      [.line ⟨(prev.x + pt.x) / 2, prev.y⟩, .line ⟨(prev.x + pt.x) / 2, pt.y⟩, .line pt]
    else if kind = postStep then
      .line ⟨pt.x, prev.y⟩ :: (if i ≠ (total : Int) - 2 then [.line pt] else [])
    else []) ++ fillSteps kind total pt rest (i + 1)

/-- The fill-polygon path built by `Step.Plot` (lines 70–98 of the new
`step.go`) for a non-empty device-space point list `ps`: move to
`(ps[0].X, minY)`, an initial `Line(prev)` unless the style is `PreStep`,
the per-pair step segments, a final line down to `(ps[len-1].X, minY)`,
and `Close`.  For an empty list the fill branch is not entered at all
(guard `len(ps) > 0`), so we return the empty path. -/
def buildFillPolygon (kind : StepKind) (minY : ℚ) (ps : List Point) : List PathComp :=
  match ps with
  | [] => []
  | p0 :: rest =>
    .move ⟨p0.x, minY⟩ ::
      ((if kind ≠ preStep then [.line p0] else []) ++
        fillSteps kind (rest.length + 1) p0 rest 0 ++
        [.line ⟨(rest.getLastD p0).x, minY⟩, .close])

/-- The body of the stroke loop `for _, pt := range l[1:]` of `Step.Plot`
(lines 114–126 of the new `step.go`): the `switch` inserts the intermediate
step vertices, then `p.Line(pt)` runs unconditionally. -/
def strokeSteps (kind : StepKind) : Point → List Point → List PathComp
  | _, [] => []
  | prev, pt :: rest =>
    (if kind = preStep then
      [.line ⟨prev.x, pt.y⟩]
    else if kind = midStep then
      [.line ⟨(prev.x + pt.x) / 2, prev.y⟩, .line ⟨(prev.x + pt.x) / 2, pt.y⟩]
    else if kind = postStep then
      [.line ⟨pt.x, prev.y⟩]
    else []) ++ (.line pt :: strokeSteps kind pt rest)

/-- The stroke path built for one clipped sub-polyline `l` (lines 111–126 of
the new `step.go`): `p.Move(l[0])` then the step segments.  Only called on
non-empty `l`; on `[]` we return the empty path. -/
def strokePathOfLine (kind : StepKind) : List Point → List PathComp
  | [] => []
  | p0 :: rest => .move p0 :: strokeSteps kind p0 rest

/-- The stroke paths emitted by the loop `for _, l := range lines`
(lines 107–128 of the new `step.go`): sub-polylines with `len(l) == 0` are
skipped by `continue`; every other sub-polyline, including those of length 1,
gets `c.Stroke(p)` with its built path. -/
def buildStrokeSegments (kind : StepKind) (lines : List (List Point)) : List (List PathComp) :=
  (lines.filter (fun l => !l.isEmpty)).map (strokePathOfLine kind)

/-- A drawing command issued by `Step.Plot` on the canvas.  Colors and line
styles are opaque to the plotting logic; they are modelled as `Nat` tags. -/
inductive Cmd where
  | setColor (col : Nat)
  | fill (pa : List PathComp)
  | setLineStyle (ls : Nat)
  | stroke (pa : List PathComp)
deriving DecidableEq, Repr

/-- The new `Step` plotter (igrmk version): point data, `StepStyle`,
optional `LineStyle` (`nil` ↦ `none`) and optional `FillColor`. -/
structure Step where
  xys : List Point
  stepStyle : StepKind
  lineStyle : Option Nat
  fillColor : Option Nat
deriving DecidableEq, Repr

/-- The command sequence issued by `Step.Plot` (new `step.go`, lines 61–130),
once the device-space points `ps` have been computed.  `clip` is the canvas's
`ClipLinesXY` primitive (a collaborator, passed as a parameter), `minY` is
`trY(plt.Y.Min)`.  The fill block runs when `FillColor ≠ nil` and
`len(ps) > 0`; the stroke block runs when `LineStyle ≠ nil` and the clipped
line set is non-empty. -/
def plotCmds (clip : List Point → List (List Point)) (fillColor lineStyle : Option Nat)
    (kind : StepKind) (minY : ℚ) (ps : List Point) : List Cmd :=
  (match fillColor with
    | some col =>
      if ps.length > 0 then
        [.setColor col, .fill (buildFillPolygon kind minY ps)]
      else []
    | none => []) ++
  (match lineStyle with
    | some ls =>
      let lines := clip ps
      if lines.isEmpty then []
      else .setLineStyle ls :: (buildStrokeSegments kind lines).map .stroke
    | none => [])

/-- `Step.Plot` of the new `step.go`: maps the data points through the plot's
coordinate transforms `trX`, `trY`, computes `minY := trY(plt.Y.Min)` with
`yMin = plt.Y.Min`, and issues the fill and stroke commands. -/
def stepPlot (clip : List Point → List (List Point)) (trX trY : ℚ → ℚ) (yMin : ℚ)
    (s : Step) : List Cmd :=
  let ps := s.xys.map (fun p => ⟨trX p.x, trY p.y⟩)
  plotCmds clip s.fillColor s.lineStyle s.stepStyle (trY yMin) ps

/-- Modelled from the spec: `XYRange` (called by `Step.DataRange` but absent
from the sources under verification) computes the tight bounding box
`(xmin, xmax, ymin, ymax)` of the point sequence in data space.  The empty
sequence is the degenerate case of the underlying bounding-box primitive;
it is modelled by the junk value `(0, 0, 0, 0)`. -/
def xyRange (ps : List Point) : ℚ × ℚ × ℚ × ℚ :=
  match ps with
  | [] => (0, 0, 0, 0)
  | p :: rest =>
    (rest.foldl (fun a q => min a q.x) p.x,
     rest.foldl (fun a q => max a q.x) p.x,
     rest.foldl (fun a q => min a q.y) p.y,
     rest.foldl (fun a q => max a q.y) p.y)

/-- `Step.DataRange` (new `step.go`, lines 135–143): the tight bounding box,
with the y-range widened to include 0 when `FillColor ≠ nil`. -/
def dataRange (s : Step) : ℚ × ℚ × ℚ × ℚ :=
  match s.fillColor with
  | some _ =>
    match xyRange s.xys with
    | (xmin, xmax, ymin, ymax) => (xmin, xmax, min ymin 0, max ymax 0)
  | none => xyRange s.xys

/-- A drawing command issued by `Step.Thumbnail` on the canvas. -/
inductive TCmd where
  | fillPolygon (col : Nat) (poly : List Point)
  | strokeLine (ls : Nat) (x0 y0 x1 y1 : ℚ)
deriving DecidableEq, Repr

/-- `Step.Thumbnail` of the new `step.go` (lines 146–168): when `FillColor`
is set, fills a rectangle whose top edge is `c.Max.Y` when `LineStyle` is
`nil` and the vertical midpoint otherwise, clipped by `ClipPolygonY`
(a collaborator, passed as `clipPolyY`); when `LineStyle` is set,
additionally strokes one horizontal line through `c.Center().Y`. -/
def thumbnail (clipPolyY : List Point → List Point) (cmin cmax : Point)
    (s : Step) : List TCmd :=
  (match s.fillColor with
    | some col =>
      let topY := if s.lineStyle = none then cmax.y else (cmin.y + cmax.y) / 2
      let points : List Point :=
        [⟨cmin.x, cmin.y⟩, ⟨cmin.x, topY⟩, ⟨cmax.x, topY⟩, ⟨cmax.x, cmin.y⟩]
      [.fillPolygon col (clipPolyY points)]
    | none => []) ++
  (match s.lineStyle with
    | some ls => [.strokeLine ls cmin.x ((cmin.y + cmax.y) / 2) cmax.x ((cmin.y + cmax.y) / 2)]
    | none => [])

/-- A raw caller-supplied coordinate: `none` encodes a malformed (non-finite)
value as yielded by the source iterator. -/
abbrev RawCoord := Option ℚ

/-- A raw caller-supplied point, as produced by the `XYer` data source. -/
abbrev RawXY := RawCoord × RawCoord

/-- Modelled from the spec: `CopyXYs` (called by `NewStep` but absent from the
sources under verification) copies the caller-supplied points, failing with an
InvalidInput error as soon as the source yields a malformed point (a
non-finite coordinate, encoded here as `none`). -/
def copyXYs : List RawXY → Except Unit (List Point)
  | [] => .ok []
  | (some x, some y) :: rest =>
    match copyXYs rest with
    | .ok data => .ok (⟨x, y⟩ :: data)
    | .error e => .error e
  | _ => .error ()

/-- The opaque `plotter.DefaultLineStyle` tag. -/
def defaultLineStyle : Nat := 0

/-- `NewStep` (new `step.go`, lines 49–58): copies the point data, propagating
the copy error, and otherwise returns a `Step` with the default line style, the
zero-valued `StepStyle` (= `PreStep`) and no fill color. -/
def newStep (xys : List RawXY) : Except Unit Step :=
  match copyXYs xys with
  | .error e => .error e
  | .ok data => .ok ⟨data, preStep, some defaultLineStyle, none⟩

/-- `true` exactly on a successful `Except` result. -/
def exceptOk {α : Type} : Except Unit α → Bool
  | .ok _ => true
  | .error _ => false

/-! ### The old gonum version (`plotter/step.go` with `ShadeColor`/`StepType`)

Translated independently from the old source file; its `Plot` body is
lines 59–128, `DataRange` lines 133–141 and `Thumbnail` lines 145–159. -/

/-- The old `Step` plotter: `StepType` and `ShadeColor` instead of
`StepStyle` and `FillColor`. -/
structure StepOld where
  xys : List Point
  stepType : StepKind
  lineStyle : Option Nat
  shadeColor : Option Nat
deriving DecidableEq, Repr

/-- The fill loop body of the old `Step.Plot` (old `step.go`, lines 77–93). -/
def fillStepsOld (kind : StepKind) (total : Nat) : Point → List Point → Int → List PathComp
  | _, [], _ => []
  | prev, pt :: rest, i =>
    (if kind = preStep then
      [.line ⟨prev.x, pt.y⟩, .line pt]
    else if kind = midStep then
      [.line ⟨(prev.x + pt.x) / 2, prev.y⟩, .line ⟨(prev.x + pt.x) / 2, pt.y⟩, .line pt]
    else if kind = postStep then
      .line ⟨pt.x, prev.y⟩ :: (if i ≠ (total : Int) - 2 then [.line pt] else [])
    else []) ++ fillStepsOld kind total pt rest (i + 1)

/-- The fill polygon of the old `Step.Plot` (old `step.go`, lines 68–97). -/
def buildFillPolygonOld (kind : StepKind) (minY : ℚ) (ps : List Point) : List PathComp :=
  match ps with
  | [] => []
  | p0 :: rest =>
    .move ⟨p0.x, minY⟩ ::
      ((if kind ≠ preStep then [.line p0] else []) ++
        fillStepsOld kind (rest.length + 1) p0 rest 0 ++
        [.line ⟨(rest.getLastD p0).x, minY⟩, .close])

/-- The stroke loop body of the old `Step.Plot` (old `step.go`, lines 112–124). -/
def strokeStepsOld (kind : StepKind) : Point → List Point → List PathComp
  | _, [] => []
  | prev, pt :: rest =>
    (if kind = preStep then
      [.line ⟨prev.x, pt.y⟩]
    else if kind = midStep then
      [.line ⟨(prev.x + pt.x) / 2, prev.y⟩, .line ⟨(prev.x + pt.x) / 2, pt.y⟩]
    else if kind = postStep then
      [.line ⟨pt.x, prev.y⟩]
    else []) ++ (.line pt :: strokeStepsOld kind pt rest)

/-- The stroke path for one clipped sub-polyline, old version
(old `step.go`, lines 109–124). -/
def strokePathOfLineOld (kind : StepKind) : List Point → List PathComp
  | [] => []
  | p0 :: rest => .move p0 :: strokeStepsOld kind p0 rest

/-- The stroke paths emitted by the old `Step.Plot`
(old `step.go`, lines 105–126). -/
def buildStrokeSegmentsOld (kind : StepKind) (lines : List (List Point)) : List (List PathComp) :=
  (lines.filter (fun l => !l.isEmpty)).map (strokePathOfLineOld kind)

/-- The command sequence of the old `Step.Plot` (old `step.go`, lines 59–128)
on device-space points `ps`. -/
def plotCmdsOld (clip : List Point → List (List Point)) (shadeColor lineStyle : Option Nat)
    (kind : StepKind) (minY : ℚ) (ps : List Point) : List Cmd :=
  (match shadeColor with
    | some col =>
      if ps.length > 0 then
        [.setColor col, .fill (buildFillPolygonOld kind minY ps)]
      else []
    | none => []) ++
  (match lineStyle with
    | some ls =>
      let lines := clip ps
      if lines.isEmpty then []
      else .setLineStyle ls :: (buildStrokeSegmentsOld kind lines).map .stroke
    | none => [])

/-- `Step.Plot` of the old `step.go`. -/
def stepPlotOld (clip : List Point → List (List Point)) (trX trY : ℚ → ℚ) (yMin : ℚ)
    (s : StepOld) : List Cmd :=
  let ps := s.xys.map (fun p => ⟨trX p.x, trY p.y⟩)
  plotCmdsOld clip s.shadeColor s.lineStyle s.stepType (trY yMin) ps

/-- `Step.DataRange` of the old `step.go` (lines 133–141). -/
def dataRangeOld (s : StepOld) : ℚ × ℚ × ℚ × ℚ :=
  match s.shadeColor with
  | some _ =>
    match xyRange s.xys with
    | (xmin, xmax, ymin, ymax) => (xmin, xmax, min ymin 0, max ymax 0)
  | none => xyRange s.xys

/-- `Step.Thumbnail` of the old `step.go` (lines 145–159): when `ShadeColor`
is set, fills the full-height rectangle of the box (top edge at `c.Max.Y`)
and draws nothing else; only when `ShadeColor` is `nil` and `LineStyle` is set
does it stroke the horizontal center line (`else if`). -/
def thumbnailOld (clipPolyY : List Point → List Point) (cmin cmax : Point)
    (s : StepOld) : List TCmd :=
  match s.shadeColor with
  | some col =>
    let points : List Point :=
      [⟨cmin.x, cmin.y⟩, ⟨cmin.x, cmax.y⟩, ⟨cmax.x, cmax.y⟩, ⟨cmax.x, cmin.y⟩]
    [.fillPolygon col (clipPolyY points)]
  | none =>
    match s.lineStyle with
    | some ls => [.strokeLine ls cmin.x ((cmin.y + cmax.y) / 2) cmax.x ((cmin.y + cmax.y) / 2)]
    | none => []

/-- The configuration of C7: one set of data translated into both plotter
versions, mapping `FillColor ↦ ShadeColor` and `StepStyle ↦ StepType`. -/
def toOld (s : Step) : StepOld :=
  ⟨s.xys, s.stepStyle, s.lineStyle, s.fillColor⟩

/-! ### Spec-side auxiliary definitions -/

/-- The target points of the `move` and `line` components of a path, in
order: the vertices the path visits. -/
def pathVerts (pa : List PathComp) : List Point :=
  pa.filterMap fun c =>
    match c with
    | .move p => some p
    | .line p => some p
    | .close => none

/-- The `line` components of a path: the segments actually drawn by a
stroke.  A path without any is invisible when stroked. -/
def lineComps (pa : List PathComp) : List PathComp :=
  pa.filter fun c =>
    match c with
    | .line _ => true
    | _ => false

/-- The intermediate vertices that, according to the spec, each step kind
inserts between a consecutive pair `(prev, pt)` of a stroke polyline. -/
def stepVerts (kind : StepKind) (prev pt : Point) : List Point :=
  if kind = preStep then [⟨prev.x, pt.y⟩]
  else if kind = midStep then
    [⟨(prev.x + pt.x) / 2, prev.y⟩, ⟨(prev.x + pt.x) / 2, pt.y⟩]
  else if kind = postStep then [⟨pt.x, prev.y⟩]
  else []

/-- The spec's wording of the Post-step fill contributions: each consecutive
pair `(prev, pt)` contributes a horizontal segment to `(pt.x, prev.y)` and
then a vertical segment to `pt`, except that the vertical segment is omitted
for the final pair (when `pt` is the last point). -/
def postFillPairs : Point → List Point → List PathComp
  | _, [] => []
  | prev, pt :: rest =>
    .line ⟨pt.x, prev.y⟩ ::
      ((if rest.isEmpty then [] else [.line pt]) ++ postFillPairs pt rest)

/-! ### Supporting lemmas -/

lemma stepVerts_map_line (kind : StepKind) (prev pt : Point) :
    (stepVerts kind prev pt).map PathComp.line =
      (if kind = preStep then [PathComp.line ⟨prev.x, pt.y⟩]
       else if kind = midStep then
         [PathComp.line ⟨(prev.x + pt.x) / 2, prev.y⟩,
          PathComp.line ⟨(prev.x + pt.x) / 2, pt.y⟩]
       else if kind = postStep then [PathComp.line ⟨pt.x, prev.y⟩]
       else []) := by
  unfold stepVerts
  split_ifs <;> simp

lemma strokeSteps_eq_flatMap (kind : StepKind) (rest : List Point) :
    ∀ prev, strokeSteps kind prev rest =
      ((prev :: rest).zip rest).flatMap
        (fun pr => (stepVerts kind pr.1 pr.2).map PathComp.line ++ [.line pr.2]) := by
  induction rest with
  | nil => intro prev; rfl
  | cons pt rest ih =>
    intro prev
    rw [strokeSteps, List.zip_cons_cons, List.flatMap_cons, ih pt, ← stepVerts_map_line]
    simp

lemma sublist_pathVerts_strokeSteps (kind : StepKind) (rest : List Point) :
    ∀ prev, rest.Sublist (pathVerts (strokeSteps kind prev rest)) := by
  induction rest with
  | nil => intro prev; simp
  | cons pt rest ih =>
    intro prev
    rw [strokeSteps, pathVerts, List.filterMap_append]
    refine List.Sublist.trans ?_ (List.sublist_append_right _ _)
    rw [List.filterMap_cons]
    exact (ih pt).cons₂ pt

lemma fillSteps_post_eq (total : Nat) (l : List Point) :
    ∀ (prev : Point) (i : Int), (total : Int) = i + 1 + l.length →
      fillSteps postStep total prev l i = postFillPairs prev l := by
  induction l with
  | nil => intro prev i _; rfl
  | cons pt rest ih =>
    intro prev i h
    simp only [List.length_cons] at h
    rw [fillSteps, postFillPairs, ih pt (i + 1) (by push_cast at h; omega)]
    have hcond : (i ≠ (total : Int) - 2) = ¬ rest.isEmpty := by
      cases rest with
      | nil => simp at h ⊢; omega
      | cons q qs => simp at h ⊢; omega
    simp only [postStep, preStep, midStep]
    norm_num [hcond]

lemma fillSteps_other (kind : StepKind) (hk0 : kind ≠ preStep) (hk1 : kind ≠ midStep)
    (hk2 : kind ≠ postStep) (total : Nat) (l : List Point) :
    ∀ (prev : Point) (i : Int), fillSteps kind total prev l i = [] := by
  induction l with
  | nil => intro prev i; rfl
  | cons pt rest ih =>
    intro prev i
    rw [fillSteps, ih pt (i + 1)]
    simp [hk0, hk1, hk2]

lemma strokeSteps_other (kind : StepKind) (hk0 : kind ≠ preStep) (hk1 : kind ≠ midStep)
    (hk2 : kind ≠ postStep) (rest : List Point) :
    ∀ prev, strokeSteps kind prev rest = rest.map PathComp.line := by
  induction rest with
  | nil => intro prev; rfl
  | cons pt rest ih =>
    intro prev
    rw [strokeSteps, ih pt]
    simp [hk0, hk1, hk2]

lemma fillStepsOld_eq (kind : StepKind) (total : Nat) (l : List Point) :
    ∀ (prev : Point) (i : Int), fillStepsOld kind total prev l i = fillSteps kind total prev l i := by
  induction l with
  | nil => intro prev i; rfl
  | cons pt rest ih =>
    intro prev i
    rw [fillStepsOld, fillSteps, ih pt (i + 1)]

lemma strokeStepsOld_eq (kind : StepKind) (rest : List Point) :
    ∀ prev, strokeStepsOld kind prev rest = strokeSteps kind prev rest := by
  induction rest with
  | nil => intro prev; rfl
  | cons pt rest ih =>
    intro prev
    rw [strokeStepsOld, strokeSteps, ih pt]

lemma buildFillPolygonOld_eq (kind : StepKind) (minY : ℚ) (ps : List Point) :
    buildFillPolygonOld kind minY ps = buildFillPolygon kind minY ps := by
  cases ps with
  | nil => rfl
  | cons p0 rest => rw [buildFillPolygonOld, buildFillPolygon, fillStepsOld_eq]

lemma strokePathOfLineOld_eq (kind : StepKind) (l : List Point) :
    strokePathOfLineOld kind l = strokePathOfLine kind l := by
  cases l with
  | nil => rfl
  | cons p0 rest => rw [strokePathOfLineOld, strokePathOfLine, strokeStepsOld_eq]

lemma buildStrokeSegmentsOld_eq (kind : StepKind) (lines : List (List Point)) :
    buildStrokeSegmentsOld kind lines = buildStrokeSegments kind lines := by
  unfold buildStrokeSegmentsOld buildStrokeSegments
  exact List.map_congr_left fun l _ => strokePathOfLineOld_eq kind l

lemma foldl_min_pos (l : List Point) :
    ∀ a : ℚ, 0 < a → (∀ p ∈ l, 0 < p.y) →
      0 < l.foldl (fun acc q => min acc q.y) a := by
  induction l with
  | nil => intro a ha _; exact ha
  | cons p rest ih =>
    intro a ha h
    exact ih _ (lt_min ha (h p (by simp))) fun q hq => h q (by simp [hq])

lemma foldl_max_neg (l : List Point) :
    ∀ a : ℚ, a < 0 → (∀ p ∈ l, p.y < 0) →
      l.foldl (fun acc q => max acc q.y) a < 0 := by
  induction l with
  | nil => intro a ha _; exact ha
  | cons p rest ih =>
    intro a ha h
    exact ih _ (max_lt ha (h p (by simp))) fun q hq => h q (by simp [hq])

/-! ### Claims -/

/-- C1, counterexample: for device points `[(0,1),(1,3),(2,2)]`, `PreStep`
and baseline `minY = 0`, the fill polygon is not the claimed sequence
`(0,0),(0,1),(0,3),(1,3),(1,2),(2,2),(2,0),close`: the claimed vertex
`(0,1)` never occurs, because the initial riser `pa.Line(prev)` is omitted
when the style is `PreStep`. -/
theorem C1_counterexample :
    buildFillPolygon preStep 0 [⟨0, 1⟩, ⟨1, 3⟩, ⟨2, 2⟩] ≠
      [.move ⟨0, 0⟩, .line ⟨0, 1⟩, .line ⟨0, 3⟩, .line ⟨1, 3⟩, .line ⟨1, 2⟩,
       .line ⟨2, 2⟩, .line ⟨2, 0⟩, .close] := by
  norm_num [buildFillPolygon, fillSteps, preStep, midStep, postStep]

/-- C1, amended: for device points `[(0,1),(1,3),(2,2)]`, `PreStep` and
baseline `minY = 0`, the fill polygon is the closed sequence
`(0,0),(0,3),(1,3),(1,2),(2,2),(2,0),close` — the vertex `(0,1)` of the
claim is absent since `PreStep` skips the initial riser. -/
theorem C1_pre_fill_scenario :
    buildFillPolygon preStep 0 [⟨0, 1⟩, ⟨1, 3⟩, ⟨2, 2⟩] =
      [.move ⟨0, 0⟩, .line ⟨0, 3⟩, .line ⟨1, 3⟩, .line ⟨1, 2⟩,
       .line ⟨2, 2⟩, .line ⟨2, 0⟩, .close] := by
  norm_num [buildFillPolygon, fillSteps, preStep, midStep, postStep]

/-- C2: for every clipped sub-polyline `p0 :: rest`, the stroke path starts
at `p0` and, for each consecutive pair, inserts exactly the step vertices of
its kind (`Pre`: `(prev.x, pt.y)`; `Mid`: two vertices at the arithmetic
mean of the bracketing x-coordinates; `Post`: `(pt.x, prev.y)`) followed by
a line to `pt`; consequently the path visits every input point in order,
an all-inclusive clip (returning the whole polyline as the single
sub-polyline) yields exactly one stroke path, and the concrete `PostStep`
scenario `[(0,1),(1,3),(2,2)]` yields `(0,1),(1,1),(1,3),(2,3),(2,2)`. -/
theorem C2_stroke_path_structure (kind : StepKind) (p0 : Point) (rest : List Point) :
    strokePathOfLine kind (p0 :: rest) =
      .move p0 :: ((p0 :: rest).zip rest).flatMap
        (fun pr => (stepVerts kind pr.1 pr.2).map PathComp.line ++ [.line pr.2])
    ∧ (∀ prev pt : Point,
        (stepVerts midStep prev pt).map Point.x = [(prev.x + pt.x) / 2, (prev.x + pt.x) / 2])
    ∧ (p0 :: rest).Sublist (pathVerts (strokePathOfLine kind (p0 :: rest)))
    ∧ buildStrokeSegments kind [p0 :: rest] = [strokePathOfLine kind (p0 :: rest)]
    ∧ strokePathOfLine postStep [⟨0, 1⟩, ⟨1, 3⟩, ⟨2, 2⟩] =
        [.move ⟨0, 1⟩, .line ⟨1, 1⟩, .line ⟨1, 3⟩, .line ⟨2, 3⟩, .line ⟨2, 2⟩] := by
  refine ⟨?_, ?_, ?_, ?_, ?_⟩
  · rw [strokePathOfLine, strokeSteps_eq_flatMap]
  · intro prev pt
    simp [stepVerts, midStep, preStep]
  · rw [strokePathOfLine]
    show (p0 :: rest).Sublist (List.filterMap _ (.move p0 :: strokeSteps kind p0 rest))
    rw [List.filterMap_cons]
    exact (sublist_pathVerts_strokeSteps kind rest p0).cons₂ p0
  · simp [buildStrokeSegments]
  · norm_num [strokePathOfLine, strokeSteps, postStep, preStep, midStep]

/-- C3: in the `PostStep` fill polygon, each consecutive pair `(prev, pt)`
contributes a horizontal segment to `(pt.x, prev.y)` followed by a vertical
segment to `pt`, except the final pair, whose vertical segment is omitted. -/
theorem C3_post_fill_pairs (minY : ℚ) (p0 : Point) (rest : List Point) :
    buildFillPolygon postStep minY (p0 :: rest) =
      .move ⟨p0.x, minY⟩ :: .line p0 ::
        (postFillPairs p0 rest ++ [.line ⟨(rest.getLastD p0).x, minY⟩, .close]) := by
  rw [buildFillPolygon, fillSteps_post_eq (rest.length + 1) rest p0 0 (by push_cast; ring)]
  norm_num [postStep, preStep]

/-- C4: for every step kind and non-empty point list, the fill polygon opens
with a move to `(points[0].x, minY)`, its final vertex before closing is
`(points[n-1].x, minY)`, and the path ends with `Close`. -/
theorem C4_fill_polygon_baseline (kind : StepKind) (minY : ℚ) (p0 : Point) (rest : List Point) :
    (buildFillPolygon kind minY (p0 :: rest)).head? = some (.move ⟨p0.x, minY⟩)
    ∧ (buildFillPolygon kind minY (p0 :: rest)).getLast? = some .close
    ∧ (buildFillPolygon kind minY (p0 :: rest)).dropLast.getLast? =
        some (.line ⟨(rest.getLastD p0).x, minY⟩) := by
  rw [buildFillPolygon]
  have h1 : PathComp.move ⟨p0.x, minY⟩ ::
      ((if kind ≠ preStep then [PathComp.line p0] else []) ++
        fillSteps kind (rest.length + 1) p0 rest 0 ++
        [PathComp.line ⟨(rest.getLastD p0).x, minY⟩, PathComp.close]) =
      (PathComp.move ⟨p0.x, minY⟩ ::
        ((if kind ≠ preStep then [PathComp.line p0] else []) ++
          fillSteps kind (rest.length + 1) p0 rest 0) ++
        [PathComp.line ⟨(rest.getLastD p0).x, minY⟩]) ++ [PathComp.close] := by
    simp
  refine ⟨rfl, ?_, ?_⟩
  · rw [h1, List.getLast?_concat]
  · rw [h1, List.dropLast_concat, List.getLast?_concat]

/-- C5, counterexample: `Step.Plot` opens and closes the fill polygon at
`minY = trY(plt.Y.Min)`, not at the zero line `trY(0)`.  With the transform
`trY y = 10 - y` and axis minimum `plt.Y.Min = -5`, the fill baseline sits
at device y `15`, while the device y of data value zero is `10 ≠ 15`. -/
theorem C5_counterexample :
    stepPlot (fun _ => []) (fun x => x) (fun y => 10 - y) (-5)
        ⟨[⟨0, 1⟩], preStep, none, some 0⟩ =
      [.setColor 0, .fill [.move ⟨0, 15⟩, .line ⟨0, 15⟩, .close]]
    ∧ (10 : ℚ) - 0 ≠ 15 := by
  constructor
  · norm_num [stepPlot, plotCmds, buildFillPolygon, fillSteps, preStep]
  · norm_num

/-- C5, amended: when `FillColor` is set, the baseline used to open and
close the fill polygon is `trY(plt.Y.Min)`, the device-space y-coordinate of
the axis minimum (which coincides with the zero line only when the y-axis
minimum is 0): the plot issues `SetColor` and then a fill whose polygon opens
with a move to `(trX points[0].x, trY yMin)`. -/
theorem C5_baseline_is_axis_min (clip : List Point → List (List Point))
    (trX trY : ℚ → ℚ) (yMin : ℚ) (col : Nat) (ls : Option Nat) (kind : StepKind)
    (p0 : Point) (rest : List Point) :
    (stepPlot clip trX trY yMin ⟨p0 :: rest, kind, ls, some col⟩).take 2 =
      [.setColor col,
       .fill (buildFillPolygon kind (trY yMin) ((p0 :: rest).map fun p => ⟨trX p.x, trY p.y⟩))]
    ∧ (buildFillPolygon kind (trY yMin) ((p0 :: rest).map fun p => ⟨trX p.x, trY p.y⟩)).head? =
        some (.move ⟨trX p0.x, trY yMin⟩) := by
  constructor
  · show (plotCmds clip (some col) ls kind (trY yMin) _).take 2 = _
    unfold plotCmds
    simp only [List.length_map, List.length_cons]
    rw [if_pos (Nat.succ_pos _)]
    rfl
  · rw [List.map_cons, buildFillPolygon]
    rfl

/-- C6: `DataRange` with fill enabled only widens the y-range of the tight
bounding box to include 0; with all-positive y-values the widened minimum is
0, with all-negative y-values the widened maximum is 0; with fill disabled
the tight bounding box is returned unchanged. -/
theorem C6_data_range (xys : List Point) (kind : StepKind) (ls : Option Nat) (col : Nat)
    (xmin xmax ymin ymax : ℚ) (h : xyRange xys = (xmin, xmax, ymin, ymax)) :
    dataRange ⟨xys, kind, ls, some col⟩ = (xmin, xmax, min ymin 0, max ymax 0)
    ∧ dataRange ⟨xys, kind, ls, none⟩ = (xmin, xmax, ymin, ymax)
    ∧ (xys ≠ [] → (∀ p ∈ xys, 0 < p.y) → (dataRange ⟨xys, kind, ls, some col⟩).2.2.1 = 0)
    ∧ (xys ≠ [] → (∀ p ∈ xys, p.y < 0) → (dataRange ⟨xys, kind, ls, some col⟩).2.2.2 = 0) := by
  refine ⟨by simp [dataRange, h], by simp [dataRange, h], ?_, ?_⟩
  · intro hne hpos
    cases xys with
    | nil => exact absurd rfl hne
    | cons p rest =>
      have hy : 0 < rest.foldl (fun acc q => min acc q.y) p.y :=
        foldl_min_pos rest p.y (hpos p (by simp)) fun q hq => hpos q (by simp [hq])
      simp [dataRange, xyRange, min_eq_right hy.le]
  · intro hne hneg
    cases xys with
    | nil => exact absurd rfl hne
    | cons p rest =>
      have hy : rest.foldl (fun acc q => max acc q.y) p.y < 0 :=
        foldl_max_neg rest p.y (hneg p (by simp)) fun q hq => hneg q (by simp [hq])
      simp [dataRange, xyRange, max_eq_right hy.le]

/-- C6, witness: for the single all-positive point `(0, 1)` with fill
enabled, the returned y-minimum is 0. -/
theorem C6_data_range_witness :
    dataRange ⟨[⟨0, 1⟩], preStep, none, some 7⟩ = (0, 0, min 1 0, max 1 0)
    ∧ (dataRange ⟨[⟨0, 1⟩], preStep, none, some 7⟩).2.2.1 = 0 := by
  have h := C6_data_range [⟨0, 1⟩] preStep none 7 0 0 1 1 rfl
  refine ⟨h.1, h.2.2.1 (by simp) ?_⟩
  intro p hp
  simp only [List.mem_singleton] at hp
  rw [hp]
  norm_num

/-- C7, counterexample: when both a fill color and a line style are set, the
old and new thumbnails differ by more than the fill rectangle's top edge:
the old version draws only the full-height fill (its `else if` suppresses
the line), while the new version draws the half-height fill and additionally
strokes the center line. -/
theorem C7_counterexample :
    thumbnailOld id ⟨0, 0⟩ ⟨2, 2⟩ (toOld ⟨[], preStep, some 1, some 1⟩) =
      [.fillPolygon 1 [⟨0, 0⟩, ⟨0, 2⟩, ⟨2, 2⟩, ⟨2, 0⟩]]
    ∧ thumbnail id ⟨0, 0⟩ ⟨2, 2⟩ ⟨[], preStep, some 1, some 1⟩ =
      [.fillPolygon 1 [⟨0, 0⟩, ⟨0, 1⟩, ⟨2, 1⟩, ⟨2, 0⟩], .strokeLine 1 0 1 2 1] := by
  constructor
  · norm_num [thumbnailOld, toOld]
  · norm_num [thumbnail]
    decide

/-- C7, amended: for every configuration, the old (`ShadeColor`/`StepType`)
and new (`FillColor`/`StepStyle`) versions emit identical commands for `Plot`
and `DataRange`; the thumbnails agree whenever the fill color is unset or the
line style is unset, and when both are set the old version draws only the
full-height fill while the new version draws the half-height fill and
additionally strokes the horizontal center line. -/
theorem C7_rename_equivalence (clip : List Point → List (List Point))
    (trX trY : ℚ → ℚ) (yMin : ℚ) (clipPolyY : List Point → List Point)
    (cmin cmax : Point) (s : Step) :
    stepPlotOld clip trX trY yMin (toOld s) = stepPlot clip trX trY yMin s
    ∧ dataRangeOld (toOld s) = dataRange s
    ∧ (s.fillColor = none →
        thumbnailOld clipPolyY cmin cmax (toOld s) = thumbnail clipPolyY cmin cmax s)
    ∧ (s.lineStyle = none →
        thumbnailOld clipPolyY cmin cmax (toOld s) = thumbnail clipPolyY cmin cmax s)
    ∧ (∀ col ls, s.fillColor = some col → s.lineStyle = some ls →
        thumbnailOld clipPolyY cmin cmax (toOld s) =
          [.fillPolygon col
            (clipPolyY [⟨cmin.x, cmin.y⟩, ⟨cmin.x, cmax.y⟩, ⟨cmax.x, cmax.y⟩, ⟨cmax.x, cmin.y⟩])]
        ∧ thumbnail clipPolyY cmin cmax s =
          [.fillPolygon col
            (clipPolyY [⟨cmin.x, cmin.y⟩, ⟨cmin.x, (cmin.y + cmax.y) / 2⟩,
              ⟨cmax.x, (cmin.y + cmax.y) / 2⟩, ⟨cmax.x, cmin.y⟩]),
           .strokeLine ls cmin.x ((cmin.y + cmax.y) / 2) cmax.x ((cmin.y + cmax.y) / 2)]) := by
  refine ⟨?_, ?_, ?_, ?_, ?_⟩
  · unfold stepPlotOld stepPlot plotCmdsOld plotCmds
    simp only [toOld, buildFillPolygonOld_eq, buildStrokeSegmentsOld_eq]
  · show dataRangeOld ⟨s.xys, s.stepStyle, s.lineStyle, s.fillColor⟩ = dataRange s
    unfold dataRangeOld dataRange
    rfl
  · intro h
    cases hl : s.lineStyle <;> simp [thumbnailOld, thumbnail, toOld, h, hl]
  · intro h
    cases hf : s.fillColor <;> simp [thumbnailOld, thumbnail, toOld, h, hf]
  · intro col ls hf hl
    constructor
    · simp [thumbnailOld, toOld, hf]
    · simp [thumbnail, hf, hl]

/-- C7, witness: with fill color set and no line style, old and new
thumbnails coincide on a concrete box. -/
theorem C7_rename_equivalence_witness :
    thumbnailOld id ⟨0, 0⟩ ⟨2, 2⟩ (toOld ⟨[], preStep, none, some 3⟩) =
      thumbnail id ⟨0, 0⟩ ⟨2, 2⟩ ⟨[], preStep, none, some 3⟩ := by
  exact (C7_rename_equivalence (fun _ => []) (fun x => x) (fun y => y) 0 id
    ⟨0, 0⟩ ⟨2, 2⟩ ⟨[], preStep, none, some 3⟩).2.2.2.1 rfl

/-- C8, counterexample: a clipped sub-polyline of length exactly 1 is not
skipped: `c.Stroke` is still issued for it (only length-0 sub-polylines hit
the `continue`), with a path consisting of a single `Move`. -/
theorem C8_counterexample :
    buildStrokeSegments postStep [[⟨0, 0⟩]] = [[.move ⟨0, 0⟩]]
    ∧ buildStrokeSegments postStep [[⟨0, 0⟩]] ≠ [] := by
  constructor <;> simp [buildStrokeSegments, strokePathOfLine, strokeSteps]

/-- C8, amended: a clipped sub-polyline of length exactly 1 still has its
stroke path emitted, but that path is a single `Move` with no `Line`
component, so it contributes no visible stroke geometry. -/
theorem C8_singleton_subpolyline (kind : StepKind) (p : Point)
    (before after : List (List Point)) :
    buildStrokeSegments kind (before ++ [p] :: after) =
      buildStrokeSegments kind before ++ [.move p] :: buildStrokeSegments kind after
    ∧ strokePathOfLine kind [p] = [.move p]
    ∧ lineComps [.move p] = [] := by
  refine ⟨?_, rfl, rfl⟩
  simp [buildStrokeSegments, List.filter_append, strokePathOfLine, strokeSteps]

/-- C9: `NewStep` fails exactly when copying the caller-supplied point data
fails, before any rendering (on success it returns the copied data with the
default line style, `PreStep` and no fill); once constructed, rendering is a
total function, and the degenerate empty sequence produces no drawing
commands at all (given that the clip primitive maps the empty polyline to no
sub-polylines). -/
theorem C9_error_handling (raw : List RawXY) (clip : List Point → List (List Point))
    (trX trY : ℚ → ℚ) (yMin : ℚ) (s : Step) :
    exceptOk (newStep raw) = exceptOk (copyXYs raw)
    ∧ (∀ data, copyXYs raw = .ok data →
        newStep raw = .ok ⟨data, preStep, some defaultLineStyle, none⟩)
    ∧ (∀ e, copyXYs raw = .error e → newStep raw = .error e)
    ∧ (clip [] = [] → s.xys = [] → stepPlot clip trX trY yMin s = []) := by
  refine ⟨?_, ?_, ?_, ?_⟩
  · cases h : copyXYs raw <;> simp [newStep, exceptOk, h]
  · intro data h
    simp [newStep, h]
  · intro e h
    simp [newStep, h]
  · intro hclip hxys
    cases hf : s.fillColor <;> cases hl : s.lineStyle <;>
      simp [stepPlot, plotCmds, hxys, hclip, hf, hl]

/-- C9, witness: a well-formed raw point is copied successfully, and a
`Step` with an empty point sequence plots no commands. -/
theorem C9_error_handling_witness :
    exceptOk (newStep [(some 1, some 2)]) = exceptOk (copyXYs [(some 1, some 2)])
    ∧ stepPlot (fun _ => []) (fun x => x) (fun y => y) 0 ⟨[], preStep, some 0, some 0⟩ = [] := by
  have h := C9_error_handling [(some 1, some 2)] (fun _ => []) (fun x => x) (fun y => y) 0
    ⟨[], preStep, some 0, some 0⟩
  exact ⟨h.1, h.2.2.2 rfl rfl⟩

/-- C10: for a `StepStyle` value outside the three defined kinds, `Plot`
still succeeds: the fill polygon is just baseline start, first point and
baseline end (intermediate points omitted), and the stroke connects the
clipped points directly with no inserted step vertices. -/
theorem C10_unknown_step_kind (kind : StepKind) (hk0 : kind ≠ preStep)
    (hk1 : kind ≠ midStep) (hk2 : kind ≠ postStep) (minY : ℚ) (p0 : Point)
    (rest : List Point) :
    buildFillPolygon kind minY (p0 :: rest) =
      [.move ⟨p0.x, minY⟩, .line p0, .line ⟨(rest.getLastD p0).x, minY⟩, .close]
    ∧ strokePathOfLine kind (p0 :: rest) = .move p0 :: rest.map PathComp.line := by
  constructor
  · rw [buildFillPolygon, fillSteps_other kind hk0 hk1 hk2]
    simp [hk0]
  · rw [strokePathOfLine, strokeSteps_other kind hk0 hk1 hk2]

/-- C10, witness: with the undefined step-kind value 5, the fill polygon of
`[(1,2),(3,4)]` with baseline 0 skips the data points except the first, and
the stroke is the direct polyline. -/
theorem C10_unknown_step_kind_witness :
    buildFillPolygon 5 0 [⟨1, 2⟩, ⟨3, 4⟩] =
      [.move ⟨1, 0⟩, .line ⟨1, 2⟩, .line ⟨3, 0⟩, .close]
    ∧ strokePathOfLine 5 [⟨1, 2⟩, ⟨3, 4⟩] = [.move ⟨1, 2⟩, .line ⟨3, 4⟩] := by
  have h := C10_unknown_step_kind 5 (by norm_num [preStep]) (by norm_num [midStep])
    (by norm_num [postStep]) 0 ⟨1, 2⟩ [⟨3, 4⟩]
  simpa [List.getLastD] using h

end StepPlot
